import Mathlib

/-!
Shallow embedding of the coordination logic of the PFS QuickLook dashboard
(`quicklook_core.py` and `app.py`): visit discovery with a validity cache,
the parallel 2-D array build pipeline with its result reducer, the Butler
resource cache, and the session guard flag for cross-widget updates.

Python dicts are modelled as functions into `Option`, Python exceptions as
`Except`, and the external effects (Butler I/O, filesystem listing, HoloViews
rendering) as explicit oracle parameters, so that every function of the source
becomes a total Lean function over those oracles.
-/

/-! ### Visit discovery (`discover_visits` in `quicklook_core.py`) -/

/-- Cache of validated visits: the Python dict `{visit_id: obsdate_utc}`,
modelled as a partial map from visit number to date string. -/
abbrev VisitCache : Type := Nat → Option String

/-- Dict assignment `cache[v] = d`. -/
def cacheInsert (c : VisitCache) (v : Nat) (d : String) : VisitCache :=
  fun x => if x = v then some d else c x

/-- Dict removal `cache.pop(v, None)`. -/
def cachePop (c : VisitCache) (v : Nat) : VisitCache :=
  fun x => if x = v then none else c x

/-- Embedding of the inner helper `check_visit_date` of `discover_visits`.
The filesystem scan that extracts a visit's observation date from its latest
timestamp directory (returning `None` when the path is missing, no timestamp
directory exists, or an exception occurs — all caught internally) is abstracted
by the oracle `observedDate`.  The helper returns `(visit, obsdate_utc)` when
the observed date matches the filter and `(visit, None)` otherwise. -/
def check_visit_date (observedDate : Nat → Option String) (obsdate_utc : String)
    (visit : Nat) : Nat × Option String :=
  match observedDate visit with
  | some obstime => if obstime = obsdate_utc then (visit, some obsdate_utc) else (visit, none)
  | none => (visit, none)

/-- The `cached_valid_visits` partition of `discover_visits`: visits of the
listing whose cache entry exists and matches the current date filter. -/
def cachedValidVisits (all_visits : List Nat) (obsdate_utc : String)
    (cached_visits : VisitCache) : List Nat :=
  all_visits.filter fun v => decide (cached_visits v = some obsdate_utc)

/-- The `new_visits` partition of `discover_visits`: visits of the listing with
no cache entry, or a cache entry for a different date.  `check_visit_date` is
invoked exactly on these visits. -/
def newVisits (all_visits : List Nat) (obsdate_utc : String)
    (cached_visits : VisitCache) : List Nat :=
  all_visits.filter fun v => decide (¬ (cached_visits v = some obsdate_utc))

/-- The cache-update loop of `discover_visits`: it starts from the copy
`updated_cache = cached_visits.copy()` and, for each `(visit, date)` result,
inserts the entry when `date` is not `None` and pops the visit otherwise. -/
def updateCacheWithResults (results : List (Nat × Option String))
    (cache : VisitCache) : VisitCache :=
  results.foldl
    (fun c r =>
      match r.2 with
      | some d => cacheInsert c r.1 d
      | none => cachePop c r.1)
    cache

/-- The `new_valid_visits` accumulation of `discover_visits`: visits whose
check result carries a date. -/
def newValidVisits (results : List (Nat × Option String)) : List Nat :=
  results.filterMap fun r => if r.2.isSome then some r.1 else none

/-- Embedding of Python's `sorted(l, reverse=True)` (descending order). -/
def sortedDescending (l : List Nat) : List Nat :=
  l.insertionSort (fun a b => a ≥ b)

/-- Embedding of `discover_visits`.  The Butler collection enumeration (the
`queryCollections` call together with the visit-number parsing) is abstracted
by `listing`; an `Except.error` value represents the listing step raising.
The body mirrors the source: partition the listed visits against the cache,
run `check_visit_date` on the unknown ones, update the cache copy from the
results, and return the combined valid visits sorted newest-first.  The outer
`except` handler returns the empty list together with the caller's cache. -/
def discover_visits (listing : Except String (List Nat))
    (observedDate : Nat → Option String) (obsdate_utc : String)
    (cached_visits : VisitCache) : List Nat × VisitCache :=
  match listing with
  | .error _ => ([], cached_visits)
  | .ok all_visits =>
    let results := (newVisits all_visits obsdate_utc cached_visits).map
      (check_visit_date observedDate obsdate_utc)
    (sortedDescending
        (cachedValidVisits all_visits obsdate_utc cached_visits ++ newValidVisits results),
      updateCacheWithResults results cached_visits)

/-- Concrete listing for the dated scenario: the store lists visits 100-102. -/
def listingMay20 : Except String (List Nat) := .ok [100, 101, 102]

/-- Concrete starting cache for the dated scenario: visit 100 is already
validated for 2025-05-20. -/
def cacheMay20 : VisitCache := fun v => if v = 100 then some "2025-05-20" else none

/-- Concrete observation-date oracle for the dated scenario: visits 100 and 101
were observed on 2025-05-20, visit 102 on 2025-05-19. -/
def observedMay20 : Nat → Option String := fun v =>
  if v = 100 then some "2025-05-20"
  else if v = 101 then some "2025-05-20"
  else if v = 102 then some "2025-05-19"
  else none

/-! ### Parallel array-build pipeline (`_build_single_2d_array`,
`_run_arm_jobs`, `build_2d_arrays_multi_spectrograph` in `quicklook_core.py`) -/

/-- Result tuple `(arm, transformed_array, metadata_dict, error_msg)` returned
by `_build_single_2d_array`.  The array and metadata payload types are
abstract (`α`, `β`). -/
structure BuildResult (α β : Type) where
  arm : String
  array : Option α
  metadata : Option β
  error : Option String
deriving DecidableEq

/-- One work item of the pipeline: a `(spectrograph, arm)` pair. -/
abbrev BuildTask : Type := Nat × String

/-- Embedding of `_build_single_2d_array`.  Its whole body — the cached-Butler
acquisition, the data retrieval, sky subtraction, the transform and the
detector-map overlay — sits inside one `try` block and is abstracted by the
per-task `outcome` oracle.  A successful body returns
`(arm, transformed_array, metadata, None)`; any exception raised inside the
body is caught at this task boundary and converted to
`(arm, None, None, str(e))`. -/
def build_single_2d_array (outcome : Except String (α × β)) (arm : String) :
    BuildResult α β :=
  match outcome with
  | .ok am => ⟨arm, some am.1, some am.2, none⟩
  | .error e => ⟨arm, none, none, some e⟩

/-- Embedding of the closure `_execute` of `_run_arm_jobs`: run one task and
tag the result with its spectrograph. -/
def execute_task (outcomes : BuildTask → Except String (α × β))
    (task : BuildTask) : Nat × BuildResult α β :=
  (task.1, build_single_2d_array (outcomes task) task.2)

/-- The grouping loop of `_run_arm_jobs`:
`grouped.setdefault(spectrograph, []).append(...)` over the raw results,
modelled as a map from spectrograph to its result list (a missing dict key is
the empty list). -/
def groupBySpectrograph (raw : List (Nat × BuildResult α β)) :
    Nat → List (BuildResult α β) :=
  raw.foldl (fun g r s => if s = r.1 then g s ++ [r.2] else g s) (fun _ => [])

/-- Embedding of `_run_arm_jobs`: execute every task (joblib's `Parallel`
returns its results in task-submission order) and group them by
spectrograph. -/
def run_arm_jobs (outcomes : BuildTask → Except String (α × β))
    (tasks : List BuildTask) : Nat → List (BuildResult α β) :=
  groupBySpectrograph (tasks.map (execute_task outcomes))

/-- The dict comprehension `{arm: idx for idx, arm in enumerate(arms)}` of
`build_2d_arrays_multi_spectrograph`; as in a Python dict build, a later
duplicate key overwrites an earlier index. -/
def armOrderMap (arms : List String) : String → Option Nat :=
  arms.enum.foldl (fun m p x => if x = p.2 then some p.1 else m x) (fun _ => none)

/-- The sort key `arm_order.get(item[0], float("inf"))`.  Every real index is
strictly below `arms.length`, so `arms.length` plays the role of
`float("inf")` for arms absent from the requested list. -/
def armSortKey (arms : List String) (a : String) : Nat :=
  (armOrderMap arms a).getD arms.length

/-- The in-place `entries.sort(key=lambda item: arm_order.get(item[0], inf))`
of `build_2d_arrays_multi_spectrograph` (a stable sort by the arm's position
in the caller's `arms` list). -/
def sortEntriesByArm (arms : List String) (entries : List (BuildResult α β)) :
    List (BuildResult α β) :=
  entries.insertionSort fun e1 e2 => armSortKey arms e1.arm ≤ armSortKey arms e2.arm

/-- The task product
`[(spectro, arm) for spectro in spectrographs for arm in arms]`. -/
def buildTasks (spectrographs : List Nat) (arms : List String) : List BuildTask :=
  spectrographs.flatMap fun s => arms.map fun a => (s, a)

/-- Embedding of `build_2d_arrays_multi_spectrograph`: validate the request
(the two `ValueError`s become `Except.error`), run every task through
`_run_arm_jobs`, then sort each requested spectrograph's entry list
(`setdefault` ensures every requested spectrograph has a list) by the
caller's arm order. -/
def build_2d_arrays_multi_spectrograph
    (outcomes : BuildTask → Except String (α × β))
    (spectrographs : List Nat) (arms : List String) :
    Except String (Nat → List (BuildResult α β)) :=
  if spectrographs = [] then .error "At least one spectrograph must be specified"
  else if arms = [] then .error "At least one arm must be specified"
  else
    let grouped := run_arm_jobs outcomes (buildTasks spectrographs arms)
    .ok fun s =>
      if s ∈ spectrographs then sortEntriesByArm arms (grouped s) else grouped s

/-! ### 2-D plot reducer (`create_holoviews_from_arrays` in
`quicklook_core.py`, classification and panel assembly in `plot_2d_callback`
of `app.py`) -/

/-- Embedding of Python's substring test `needle in haystack`. -/
def str_contains (haystack needle : String) : Bool :=
  haystack.toList.tails.any fun suf => needle.toList.isPrefixOf suf

/-- The `ARM_NAMES` constant of `quicklook_core.py`. -/
def ARM_NAMES : String → Option String := fun a =>
  if a = "b" then some "Blue"
  else if a = "r" then some "Red"
  else if a = "n" then some "NIR"
  else if a = "m" then some "Medium-Red"
  else none

/-- `ARM_NAMES.get(arm, arm)` as used by `plot_2d_callback`. -/
def armDisplayName (a : String) : String := (ARM_NAMES a).getD a

/-- Embedding of `create_holoviews_from_arrays`, applied to one spectrograph's
array results.  The HoloViews image construction for a successful array is
abstracted by the `render` oracle; its surrounding per-arm `try` turns a
raised exception into `(arm, None, str(e))`.  Entries whose array generation
already failed pass their error message through unchanged. -/
def create_holoviews_from_arrays {α β γ : Type}
    (render : BuildResult α β → Except String γ)
    (array_results : List (BuildResult α β)) :
    List (String × Option γ × Option String) :=
  array_results.map fun r =>
    if r.array.isSome ∧ r.metadata.isSome ∧ r.error = none then
      match render r with
      | .ok img => (r.arm, some img, none)
      | .error e => (r.arm, none, some e)
    else (r.arm, none, r.error)

/-- Per-spectrograph classification state of `plot_2d_callback`:
the `successful_arms` dict (kept as its insertion-ordered entry list), the
`missing_arms` names and the `error_arms` pairs. -/
structure ArmClassification (γ : Type) where
  successful_arms : List (String × γ)
  missing_arms : List String
  error_arms : List (String × Option String)

/-- One iteration of the classification loop of `plot_2d_callback`: a result
with an image and no error joins `successful_arms`; otherwise
`is_not_found = arm_error and "could not be found" in arm_error` routes the
arm into `missing_arms` (expected absence) or `error_arms` (real failure,
paired with the message — `None` only in the unreachable case of a result
with neither image nor error). -/
def classify_step {γ : Type} (acc : ArmClassification γ)
    (r : String × Option γ × Option String) : ArmClassification γ :=
  match r.2.1, r.2.2 with
  | some img, none =>
    { acc with successful_arms := acc.successful_arms ++ [(r.1, img)] }
  | _, _ =>
    let is_not_found :=
      match r.2.2 with
      | some e => str_contains e "could not be found"
      | none => false
    if is_not_found then
      { acc with missing_arms := acc.missing_arms ++ [armDisplayName r.1] }
    else
      { acc with error_arms := acc.error_arms ++ [(armDisplayName r.1, r.2.2)] }

/-- The classification loop of `plot_2d_callback` over one spectrograph's
`(arm, hv_img, arm_error)` results. -/
def classify_arm_results {γ : Type}
    (hv_results : List (String × Option γ × Option String)) :
    ArmClassification γ :=
  hv_results.foldl classify_step ⟨[], [], []⟩

/-- Dict lookup in the `successful_arms` entry list. -/
def lookupArm {γ : Type} (l : List (String × γ)) (a : String) : Option γ :=
  (l.find? fun p => decide (p.1 = a)).map fun p => p.2

/-- The display-order selection of `plot_2d_callback`: `brn` when only `r` is
present, `bmn` when only `m` is present, `brnm` when both (unusual), `bn`
otherwise. -/
def display_order_of {γ : Type} (succ : List (String × γ)) : List String :=
  let has_r := (lookupArm succ "r").isSome
  let has_m := (lookupArm succ "m").isSome
  if has_r ∧ ¬ has_m then ["b", "r", "n"]
  else if has_m ∧ ¬ has_r then ["b", "m", "n"]
  else if has_r ∧ has_m then ["b", "r", "n", "m"]
  else ["b", "n"]

/-- One spectrograph's assembled panel: the successful panes in display order
plus the informational notes for missing and failed arms. -/
structure ReducedPanel (γ : Type) where
  arm_panes : List γ
  missing_notes : List String
  error_notes : List (String × Option String)

/-- The per-spectrograph panel assembly of `plot_2d_callback`: a spectrograph
with an empty `successful_arms` dict produces no panel (`if successful_arms:`
fails); otherwise the panel holds
`[successful_arms[arm] for arm in display_order if arm in successful_arms]`
and the missing/error notes. -/
def reduce_spectro {γ : Type}
    (hv_results : List (String × Option γ × Option String)) :
    Option (ReducedPanel γ) :=
  let cls := classify_arm_results hv_results
  if cls.successful_arms.isEmpty then none
  else some
    { arm_panes := (display_order_of cls.successful_arms).filterMap
        (lookupArm cls.successful_arms)
      missing_notes := cls.missing_arms
      error_notes := cls.error_arms }

/-- The `spectrograph_panels` dict accumulated by `plot_2d_callback` (as its
insertion-ordered entry list over the requested spectrographs). -/
def plot_2d_panels {α β γ : Type} (render : BuildResult α β → Except String γ)
    (spectros : List Nat) (grouped : Nat → List (BuildResult α β)) :
    List (Nat × ReducedPanel γ) :=
  spectros.filterMap fun s =>
    (reduce_spectro (create_holoviews_from_arrays render (grouped s))).map
      fun p => (s, p)

/-- Terminal behaviour of one `plot_2d_callback` run: the early return when no
spectrograph is selected, the `RuntimeError` raised (and displayed by the
outer handler) when no panel was produced, or the assembled panels. -/
inductive Plot2DOutcome (γ : Type) where
  | no_spectrographs : Plot2DOutcome γ
  | failure (msg : String) : Plot2DOutcome γ
  | success (panels : List (Nat × ReducedPanel γ)) : Plot2DOutcome γ

/-- The `RuntimeError` message of `plot_2d_callback`. -/
def noResultsMsg : String :=
  "No 2D plots were successfully created. Check that the selected arm/spectrograph combinations have data available."

/-- Embedding of the decision core of `plot_2d_callback`: warn-and-return when
no spectrograph is selected; otherwise build all panels and raise the
no-results `RuntimeError` exactly when `spectrograph_panels` stayed empty. -/
def plot_2d_callback {α β γ : Type} (render : BuildResult α β → Except String γ)
    (spectros : List Nat) (grouped : Nat → List (BuildResult α β)) :
    Plot2DOutcome γ :=
  if spectros = [] then .no_spectrographs
  else
    let panels := plot_2d_panels render spectros grouped
    if panels.isEmpty then .failure noResultsMsg
    else .success panels

/-- A successful hv entry: an image is present and no error (the
`hv_img is not None and arm_error is None` test of the source). -/
def hvSuccess {γ : Type} (r : String × Option γ × Option String) : Bool :=
  r.2.1.isSome && decide (r.2.2 = none)

/-- The not-found classification of an unsuccessful hv entry. -/
def hvNotFound {γ : Type} (r : String × Option γ × Option String) : Bool :=
  match r.2.2 with
  | some e => str_contains e "could not be found"
  | none => false

/-- Success of at least one arm of a spectrograph, at the hv level. -/
def spectroHasSuccess {α β γ : Type} (render : BuildResult α β → Except String γ)
    (grouped : Nat → List (BuildResult α β)) (s : Nat) : Bool :=
  (create_holoviews_from_arrays render (grouped s)).any hvSuccess

/-- The `successful_arms` dict entry contributed by one hv result, if any. -/
def mkSuccessEntry {γ : Type} (r : String × Option γ × Option String) :
    Option (String × γ) :=
  match r.2.1, r.2.2 with
  | some img, none => some (r.1, img)
  | _, _ => none

/-- Concrete render oracle that always produces the image token 0. -/
def sampleRender : BuildResult Nat Nat → Except String Nat := fun _ => .ok 0

/-- Concrete grouped build results: spectrograph 1 has a good blue arm and a
missing red arm; spectrograph 2 has a single real failure. -/
def sampleGrouped : Nat → List (BuildResult Nat Nat) := fun s =>
  if s = 1 then
    [⟨"b", some 0, some 0, none⟩,
     ⟨"r", none, none, some "pfsArm could not be found in collection"⟩]
  else [⟨"b", none, none, some "I/O failure while reading calexp"⟩]

/-- Concrete outcome oracle in which every task succeeds with payload (0, 0). -/
def sampleOutcomes : BuildTask → Except String (Nat × Nat) := fun _ => .ok (0, 0)

/-- Concrete outcome oracle in which only the task (2, b) fails. -/
def sampleOutcomes2 : BuildTask → Except String (Nat × Nat) := fun t =>
  if t = (2, "b") then .error "boom" else .ok (0, 0)

/-- Concrete task list with two spectrographs. -/
def sampleTasks : List BuildTask := [(1, "b"), (1, "r"), (2, "b")]

/-! ### Butler resource cache (`get_butler_cached` in `quicklook_core.py`) -/

/-- Key of the Butler cache: `(datastore, base_collection, visit)`. -/
abbrev ButlerKey : Type := String × String × Nat

/-- Embedding of `get_butler`.  A Butler handle is opaque; we identify each
constructed handle by its construction index, so that "the exact cached
object" and "a newly constructed object" are distinguishable, and thread an
explicit construction counter: `get_butler` constructs one fresh handle. -/
def get_butler (counter : Nat) : Nat × Nat := (counter, counter + 1)

/-- Embedding of `get_butler_cached`.  With `butler_cache=None` it falls back
to `get_butler`; otherwise it returns the cached handle when the key
`(datastore, base_collection, visit)` is present, and else constructs one
handle, stores it under the key, and returns it.  The result is
`(handle, cache after the call, construction counter after the call)`. -/
def get_butler_cached (key : ButlerKey)
    (butler_cache : Option (ButlerKey → Option Nat)) (counter : Nat) :
    Nat × Option (ButlerKey → Option Nat) × Nat :=
  match butler_cache with
  | none =>
    let bc := get_butler counter
    (bc.1, none, bc.2)
  | some cache =>
    match cache key with
    | some b => (b, some cache, counter)
    | none =>
      let bc := get_butler counter
      (bc.1, some (fun k => if k = key then some bc.1 else cache k), bc.2)

/-! ### Visit lookup tables (`load_visit_data` in `quicklook_core.py`) -/

/-- One iteration of the mapping loop of `load_visit_data` for a
`(fiber_id, ob_code)` pair: append the fiber to the code's list (creating the
dict entry when absent) and point the fiber at the code. -/
def obcodeFiberStep
    (maps : (String → Option (List Int)) × (Int → Option String))
    (p : Int × String) :
    (String → Option (List Int)) × (Int → Option String) :=
  (fun c => if c = p.2 then some ((maps.1 p.2).getD [] ++ [p.1]) else maps.1 c,
   fun f => if f = p.1 then some p.2 else maps.2 f)

/-- Embedding of the mapping construction of `load_visit_data` over the
pfsConfig's `zip(pfsConfig.fiberId, pfsConfig.obCode)` pairs (the Butler read
producing them is abstracted by taking the pairs as input): build the
OB-code → fiber-id-list dict and the fiber-id → OB-code dict in one loop,
then sort each per-code fiber list. -/
def load_visit_data (pairs : List (Int × String)) :
    (String → Option (List Int)) × (Int → Option String) :=
  let maps := pairs.foldl obcodeFiberStep ((fun _ => none), (fun _ => none))
  (fun c => (maps.1 c).map (fun l => l.insertionSort (fun a b => a ≤ b)), maps.2)

/-! ### Session guard flag (`should_skip_update`, `on_obcode_change` and
`on_fiber_change` in `app.py`) -/

/-- The widgets and session state touched by the selection handlers: the
`programmatic_update` guard, the `visit_data` loaded flag and lookup tables,
and the values of the OB-code widget, the fiber-id widget and the tabulator
selection. -/
structure SessionWidgets where
  programmatic_update : Bool
  loaded : Bool
  obcode_to_fibers : String → Option (List Int)
  fiber_to_obcode : Int → Option String
  obcode_value : List String
  fibers_value : List Int
  tabulator_selection : List Nat

/-- Embedding of `should_skip_update`: skip when the update is programmatic
or no visit data is loaded. -/
def should_skip_update (s : SessionWidgets) : Bool :=
  s.programmatic_update || !s.loaded

/-- Embedding of `sorted(set(fiber_ids))`. -/
def sortedUnique (xs : List Int) : List Int :=
  xs.dedup.insertionSort (fun a b => a ≤ b)

/-- Embedding of `sorted(obcodes)` over the set of collected OB codes. -/
def sortedUniqueStr (xs : List String) : List String :=
  xs.dedup.insertionSort (fun a b => a ≤ b)

/-- Embedding of `on_obcode_change`.  After the guard check the handler
collects and sorts the fiber ids of the selected OB codes
(`obcode_to_fibers.get(obcode, [])`), sets the guard flag, programmatically
sets the fiber widget, updates the tabulator selection (the widget access and
pandas row lookup, abstracted by `tabIndices`, may raise — abstracted by
`tabFails`), and then resets the flag by a plain assignment.  The result is
`(raised, final state)`: when the tabulator step raises, the exception
propagates out of the handler with the guard flag still set, because the
source resets the flag after the updates rather than in a `finally` block. -/
def on_obcode_change (tabFails : Bool) (tabIndices : List Int → List Nat)
    (s : SessionWidgets) : Bool × SessionWidgets :=
  if should_skip_update s then (false, s)
  else
    let fiber_ids := s.obcode_value.flatMap fun c => (s.obcode_to_fibers c).getD []
    let unique_fiber_ids := sortedUnique fiber_ids
    let s1 := { s with programmatic_update := true }
    let s2 := { s1 with fibers_value := unique_fiber_ids }
    if tabFails then (true, s2)
    else
      let s3 := { s2 with tabulator_selection := tabIndices unique_fiber_ids }
      (false, { s3 with programmatic_update := false })

/-- Embedding of `on_fiber_change`, the mirror handler: after the guard check
it collects the OB codes of the selected fibers (dropping missing and empty
codes, as Python's `if obcode:` does), sets the guard flag, programmatically
sets the OB-code widget, updates the tabulator selection from the selected
fibers, and resets the flag by a plain assignment — again not in a `finally`
block, so a raising tabulator update propagates with the flag still set. -/
def on_fiber_change (tabFails : Bool) (tabIndices : List Int → List Nat)
    (s : SessionWidgets) : Bool × SessionWidgets :=
  if should_skip_update s then (false, s)
  else
    let obcodes := s.fibers_value.filterMap fun f =>
      match s.fiber_to_obcode f with
      | some c => if c = "" then none else some c
      | none => none
    let s1 := { s with programmatic_update := true }
    let s2 := { s1 with obcode_value := sortedUniqueStr obcodes }
    if tabFails then (true, s2)
    else
      let s3 := { s2 with tabulator_selection := tabIndices s.fibers_value }
      (false, { s3 with programmatic_update := false })

/-- Concrete session state: data loaded, guard clear, OB code obj-A selected
with fibers 2 and 3. -/
def sampleSession : SessionWidgets where
  programmatic_update := false
  loaded := true
  obcode_to_fibers := fun c => if c = "obj-A" then some [2, 3] else none
  fiber_to_obcode := fun f => if f = 2 ∨ f = 3 then some "obj-A" else none
  obcode_value := ["obj-A"]
  fibers_value := []
  tabulator_selection := []

/-! ### Theorems -/

/-- Helper: the cache-update loop leaves every key outside the checked results
untouched. -/
theorem updateCacheWithResults_not_mem (results : List (Nat × Option String))
    (c : VisitCache) (v : Nat) (h : ∀ r ∈ results, r.1 ≠ v) :
    updateCacheWithResults results c v = c v := by
  induction results generalizing c with
  | nil => rfl
  | cons r rs ih =>
    have hr : r.1 ≠ v := h r (List.mem_cons_self _ _)
    have ht : ∀ x ∈ rs, x.1 ≠ v := fun x hx => h x (List.mem_cons_of_mem _ hx)
    show updateCacheWithResults rs _ v = c v
    rw [ih _ ht]
    cases hval : r.2 <;> simp [cacheInsert, cachePop, hval, Ne.symm hr]

/-- Helper: `check_visit_date` always reports the visit it was asked about. -/
theorem check_visit_date_fst (od : Nat → Option String) (d : String) (w : Nat) :
    (check_visit_date od d w).1 = w := by
  unfold check_visit_date
  cases od w with
  | none => rfl
  | some t => by_cases h : t = d <;> simp [h]

/-- Helper: `check_visit_date` is the pair of the visit and its own second
component. -/
theorem check_visit_date_eq_pair (od : Nat → Option String) (d : String) (w : Nat) :
    check_visit_date od d w = (w, (check_visit_date od d w).2) := by
  cases hod : od w with
  | none => simp [check_visit_date, hod]
  | some t => by_cases ht : t = d <;> simp [check_visit_date, hod, ht]

/-- Helper: a per-visit check yields either the filter date or nothing. -/
theorem check_visit_date_snd (od : Nat → Option String) (d : String) (w : Nat) :
    (check_visit_date od d w).2 = if od w = some d then some d else none := by
  cases hod : od w with
  | none => simp [check_visit_date, hod]
  | some t => by_cases ht : t = d <;> simp [check_visit_date, hod, ht]

/-- Helper: pointwise value of the cache after the update loop, when the
results pair each visit with a value depending only on the visit. -/
theorem updateCacheWithResults_map_lookup (f : Nat → Option String)
    (nv : List Nat) (c : VisitCache) (v : Nat) :
    updateCacheWithResults (nv.map fun w => (w, f w)) c v =
      if v ∈ nv then f v else c v := by
  induction nv generalizing c with
  | nil => simp [updateCacheWithResults]
  | cons x xs ih =>
    show updateCacheWithResults (xs.map fun w => (w, f w)) _ v = _
    rw [ih]
    by_cases hxs : v ∈ xs
    · simp [hxs, List.mem_cons]
    · by_cases hx : v = x
      · subst hx
        cases hfx : f v <;> simp [hfx, cacheInsert, cachePop, hxs, List.mem_cons]
      · cases hfx : f x <;> simp [hfx, cacheInsert, cachePop, hxs, hx, List.mem_cons]

/-- Helper: the valid-visit accumulation over such results is a filter. -/
theorem newValidVisits_map (f : Nat → Option String) (nv : List Nat) :
    newValidVisits (nv.map fun w => (w, f w)) = nv.filter fun w => (f w).isSome := by
  induction nv with
  | nil => rfl
  | cons x xs ih =>
    simp only [List.map_cons, newValidVisits, List.filterMap_cons, List.filter_cons]
    cases hfx : f x <;> simp [hfx, ← ih, newValidVisits]

/-- Helper: the check results of `discover_visits` pair each new visit with a
value depending only on the visit. -/
theorem discover_visits_results_eq (all : List Nat) (od : Nat → Option String)
    (d : String) (c : VisitCache) :
    (newVisits all d c).map (check_visit_date od d) =
      (newVisits all d c).map fun w => (w, (check_visit_date od d w).2) :=
  List.map_congr_left fun w _ => check_visit_date_eq_pair od d w

/-- Helper: pointwise value of the cache returned by a successful discovery. -/
theorem discover_visits_cache_lookup (all : List Nat) (od : Nat → Option String)
    (d : String) (c : VisitCache) (v : Nat) :
    (discover_visits (.ok all) od d c).2 v =
      if v ∈ newVisits all d c then (check_visit_date od d v).2 else c v := by
  show updateCacheWithResults _ _ v = _
  rw [discover_visits_results_eq, updateCacheWithResults_map_lookup]

/-- Helper: the visit list returned by a successful discovery, as a sorted
concatenation of the two partitions. -/
theorem discover_visits_visits_eq (all : List Nat) (od : Nat → Option String)
    (d : String) (c : VisitCache) :
    (discover_visits (.ok all) od d c).1 =
      sortedDescending (cachedValidVisits all d c ++
        (newVisits all d c).filter fun w => ((check_visit_date od d w).2).isSome) := by
  show sortedDescending (_ ++ newValidVisits _) = _
  rw [discover_visits_results_eq, newValidVisits_map]

/-- Helper: concatenating two disjoint filters of a list permutes to the filter
of their disjunction. -/
theorem filter_append_perm_or (p q : Nat → Bool) (l : List Nat)
    (hdisj : ∀ a, p a = true → q a = false) :
    (l.filter p ++ l.filter q).Perm (l.filter fun a => p a || q a) := by
  induction l with
  | nil => simp
  | cons x xs ih =>
    cases hp : p x with
    | true =>
      have hq : q x = false := hdisj x hp
      simpa [List.filter_cons, hp, hq] using ih.cons x
    | false =>
      cases hq : q x with
      | true =>
        simp only [List.filter_cons, hp, hq, Bool.false_or, if_pos, if_neg,
          Bool.false_eq_true, not_false_eq_true, ite_true, ite_false]
        exact List.perm_middle.trans (ih.cons x)
      | false => simpa [List.filter_cons, hp, hq] using ih

/-- Helper: descending sort depends only on the multiset of its input. -/
theorem sortedDescending_perm_eq (l₁ l₂ : List Nat) (h : l₁.Perm l₂) :
    sortedDescending l₁ = sortedDescending l₂ :=
  List.eq_of_perm_of_sorted
    ((List.perm_insertionSort _ l₁).trans (h.trans (List.perm_insertionSort _ l₂).symm))
    (List.sorted_insertionSort _ l₁) (List.sorted_insertionSort _ l₂)

/-- C1: when the listing/enumeration step raises, `discover_visits` returns an
empty visit list together with the caller's cache, unmodified. -/
theorem discover_visits_listing_failure (e : String)
    (observedDate : Nat → Option String) (obsdate_utc : String)
    (cached_visits : VisitCache) (listing : Except String (List Nat))
    (h : listing = .error e) :
    discover_visits listing observedDate obsdate_utc cached_visits =
      ([], cached_visits) := by
  subst h; rfl

/-- Witness for C1 at a concrete failing listing. -/
theorem discover_visits_listing_failure_witness :
    discover_visits (.error "registry query failed") (fun _ => none) "2025-05-20"
        (fun _ => none) = ([], (fun _ => none : VisitCache)) :=
  discover_visits_listing_failure "registry query failed" (fun _ => none)
    "2025-05-20" (fun _ => none) _ rfl

/-- C10: when the listing succeeds, discovery never touches a cache key whose
visit is not in the listing — such entries keep their original date. -/
theorem discover_visits_frame (all_visits : List Nat)
    (observedDate : Nat → Option String) (obsdate_utc : String)
    (cached_visits : VisitCache) (v : Nat) (hv : v ∉ all_visits) :
    (discover_visits (.ok all_visits) observedDate obsdate_utc cached_visits).2 v =
      cached_visits v := by
  show updateCacheWithResults _ _ v = _
  apply updateCacheWithResults_not_mem
  intro r hr
  obtain ⟨w, hw, hmap⟩ := List.mem_map.1 hr
  have hw' : w ∈ all_visits := List.mem_of_mem_filter hw
  have : r.1 = w := by rw [← hmap, check_visit_date_fst]
  rw [this]
  exact fun hweq => hv (hweq ▸ hw')

/-- Witness for C10: visit 555 is absent from the listing, so its stale cache
entry survives discovery unchanged. -/
theorem discover_visits_frame_witness :
    (discover_visits (.ok [100, 101, 102]) observedMay20 "2025-05-20"
        (fun v => if v = 555 then some "2024-01-01" else none)).2 555 =
      (fun v => if v = 555 then some "2024-01-01" else none : VisitCache) 555 :=
  discover_visits_frame [100, 101, 102] observedMay20 "2025-05-20"
    (fun v => if v = 555 then some "2024-01-01" else none) 555 (by decide)

/-- C6 counterexample: on the concrete 2025-05-20 scenario the code returns the
visit list sorted in descending order, `[101, 100]`, not `[100, 101]` as the
claim states. -/
theorem discover_visits_may20_order_counterexample :
    (discover_visits listingMay20 observedMay20 "2025-05-20" cacheMay20).1 ≠
      [100, 101] := by
  decide

/-- C6 (amended): on the 2025-05-20 scenario, `discover_visits` returns the
visit list `[101, 100]` (descending, newest first), an updated cache mapping
100 and 101 to 2025-05-20 with no entry for 102, and the per-visit date check
is not invoked for the cached visit 100 (100 is not among the `new_visits`
that `check_visit_date` runs on). -/
theorem discover_visits_may20_scenario :
    (discover_visits listingMay20 observedMay20 "2025-05-20" cacheMay20).1 = [101, 100]
    ∧ (discover_visits listingMay20 observedMay20 "2025-05-20" cacheMay20).2 100 =
        some "2025-05-20"
    ∧ (discover_visits listingMay20 observedMay20 "2025-05-20" cacheMay20).2 101 =
        some "2025-05-20"
    ∧ (discover_visits listingMay20 observedMay20 "2025-05-20" cacheMay20).2 102 = none
    ∧ 100 ∉ newVisits [100, 101, 102] "2025-05-20" cacheMay20 := by
  refine ⟨by decide, by decide, by decide, by decide, by decide⟩

/-- C7: running discovery twice against an unchanged store with the same date,
feeding the first call's cache into the second, returns the identical visit
list, and the second cache agrees with the first on every returned visit (no
still-valid entry is removed or rewritten). -/
theorem discover_visits_idempotent (all : List Nat) (od : Nat → Option String)
    (d : String) (c0 : VisitCache) :
    (discover_visits (.ok all) od d (discover_visits (.ok all) od d c0).2).1 =
      (discover_visits (.ok all) od d c0).1
    ∧ ∀ v ∈ (discover_visits (.ok all) od d c0).1,
        (discover_visits (.ok all) od d (discover_visits (.ok all) od d c0).2).2 v =
          (discover_visits (.ok all) od d c0).2 v := by
  set c1 : VisitCache := (discover_visits (.ok all) od d c0).2 with hc1def
  have hmem_nv : ∀ (c : VisitCache) (v : Nat),
      v ∈ newVisits all d c ↔ v ∈ all ∧ ¬(c v = some d) := by
    intro c v; simp [newVisits, List.mem_filter]
  have hmem_cv : ∀ (c : VisitCache) (v : Nat),
      v ∈ cachedValidVisits all d c ↔ v ∈ all ∧ c v = some d := by
    intro c v; simp [cachedValidVisits, List.mem_filter]
  have hsnd_cases : ∀ v, (check_visit_date od d v).2 = some d ∨
      (check_visit_date od d v).2 = none := by
    intro v; rw [check_visit_date_snd]; split <;> simp
  have hisSome : ∀ v, ((check_visit_date od d v).2).isSome = true ↔
      (check_visit_date od d v).2 = some d := by
    intro v; rcases hsnd_cases v with h | h <;> simp [h]
  have hc1iff : ∀ v ∈ all,
      (c1 v = some d ↔ (c0 v = some d ∨ (check_visit_date od d v).2 = some d)) := by
    intro v hv
    rw [hc1def, discover_visits_cache_lookup]
    by_cases h0 : c0 v = some d
    · have hnot : v ∉ newVisits all d c0 := fun hmem => ((hmem_nv c0 v).1 hmem).2 h0
      simp [hnot, h0]
    · have hmem : v ∈ newVisits all d c0 := (hmem_nv c0 v).2 ⟨hv, h0⟩
      simp [hmem, h0]
  have hbase : (cachedValidVisits all d c0 ++
        (newVisits all d c0).filter fun w => ((check_visit_date od d w).2).isSome).Perm
      (cachedValidVisits all d c1) := by
    have hified : ((newVisits all d c0).filter
          fun w => ((check_visit_date od d w).2).isSome) =
        all.filter fun w =>
          ((check_visit_date od d w).2).isSome && !decide (c0 w = some d) := by
      show (List.filter _ (List.filter _ all)) = _
      rw [List.filter_filter]
      exact List.filter_congr fun w _ => by rw [decide_not]
    rw [hified]
    have hperm := filter_append_perm_or (fun w => decide (c0 w = some d))
      (fun w => ((check_visit_date od d w).2).isSome && !decide (c0 w = some d)) all
      (fun a ha => by simp [ha])
    refine hperm.trans ?_
    have heq : (all.filter fun w => decide (c0 w = some d) ||
          (((check_visit_date od d w).2).isSome && !decide (c0 w = some d))) =
        cachedValidVisits all d c1 := by
      refine List.filter_congr fun v hv => ?_
      by_cases h0 : c0 v = some d
      · simp [h0, (hc1iff v hv).2 (Or.inl h0)]
      · rcases hsnd_cases v with hsd | hsd
        · simp [h0, hsd, (hc1iff v hv).2 (Or.inr hsd)]
        · have hne : ¬ c1 v = some d := fun hc => by
            rcases (hc1iff v hv).1 hc with h | h
            · exact h0 h
            · rw [hsd] at h; exact Option.noConfusion h
          simp [h0, hsd, hne]
    rw [heq]
  have hnil : ((newVisits all d c1).filter
      fun w => ((check_visit_date od d w).2).isSome) = [] := by
    rw [List.filter_eq_nil_iff]
    intro v hv hSome
    have hv' := (hmem_nv c1 v).1 hv
    exact hv'.2 ((hc1iff v hv'.1).2 (Or.inr ((hisSome v).1 hSome)))
  constructor
  · rw [discover_visits_visits_eq all od d c1, discover_visits_visits_eq all od d c0,
      hnil, List.append_nil]
    exact (sortedDescending_perm_eq _ _ hbase).symm
  · intro v hv
    rw [discover_visits_visits_eq all od d c0] at hv
    simp only [sortedDescending] at hv
    have hv1 := (List.perm_insertionSort _ _).mem_iff.1 hv
    have hc1v : c1 v = some d := by
      rcases List.mem_append.1 hv1 with hcv | hnf
      · exact (hc1iff v ((hmem_cv c0 v).1 hcv).1).2 (Or.inl ((hmem_cv c0 v).1 hcv).2)
      · obtain ⟨hnv1, hSome⟩ := List.mem_filter.1 hnf
        exact (hc1iff v ((hmem_nv c0 v).1 hnv1).1).2 (Or.inr ((hisSome v).1 hSome))
    have hnot2 : v ∉ newVisits all d c1 := fun h => ((hmem_nv c1 v).1 h).2 hc1v
    rw [discover_visits_cache_lookup, if_neg hnot2]

/-- Witness for C7 on the concrete 2025-05-20 store. -/
theorem discover_visits_idempotent_witness :
    (discover_visits (.ok [100, 101, 102]) observedMay20 "2025-05-20"
        (discover_visits (.ok [100, 101, 102]) observedMay20 "2025-05-20" cacheMay20).2).1 =
      (discover_visits (.ok [100, 101, 102]) observedMay20 "2025-05-20" cacheMay20).1
    ∧ ∀ v ∈ (discover_visits (.ok [100, 101, 102]) observedMay20 "2025-05-20" cacheMay20).1,
        (discover_visits (.ok [100, 101, 102]) observedMay20 "2025-05-20"
            (discover_visits (.ok [100, 101, 102]) observedMay20 "2025-05-20"
              cacheMay20).2).2 v =
          (discover_visits (.ok [100, 101, 102]) observedMay20 "2025-05-20" cacheMay20).2 v :=
  discover_visits_idempotent [100, 101, 102] observedMay20 "2025-05-20" cacheMay20

/-- Helper: a build result always carries the arm it was asked for. -/
theorem build_single_2d_array_arm {α β : Type} (o : Except String (α × β)) (a : String) :
    (build_single_2d_array o a).arm = a := by
  cases o <;> rfl

/-- Helper: pointwise value of the grouping fold, for any accumulator. -/
theorem groupBySpectrograph_foldl {α β : Type} (raw : List (Nat × BuildResult α β))
    (g : Nat → List (BuildResult α β)) (s : Nat) :
    (raw.foldl (fun g r t => if t = r.1 then g t ++ [r.2] else g t) g) s =
      g s ++ (raw.filter fun r => decide (r.1 = s)).map (fun r => r.2) := by
  induction raw generalizing g with
  | nil => simp
  | cons r rs ih =>
    rw [List.foldl_cons, ih]
    by_cases hs : r.1 = s
    · simp [List.filter_cons, hs]
    · have hs' : ¬ s = r.1 := fun h => hs h.symm
      simp [List.filter_cons, hs, hs']

/-- Helper: `_run_arm_jobs` groups one build result per task, in task order. -/
theorem run_arm_jobs_eq {α β : Type} (outcomes : BuildTask → Except String (α × β))
    (tasks : List BuildTask) (s : Nat) :
    run_arm_jobs outcomes tasks s =
      (tasks.filter fun t => decide (t.1 = s)).map
        (fun t => build_single_2d_array (outcomes t) t.2) := by
  unfold run_arm_jobs groupBySpectrograph
  rw [groupBySpectrograph_foldl, List.nil_append]
  induction tasks with
  | nil => rfl
  | cons t ts ih =>
    simp only [List.map_cons, List.filter_cons, execute_task]
    by_cases ht : t.1 = s
    · simp [ht, ih]
    · simp [ht, ih]

/-- C2: in the array-build pipeline, (i) every `(spectrograph, arm)` task
contributes exactly one `BuildResult` to the returned grouping — the group of
spectrograph `s` is precisely the per-task build results of the tasks naming
`s`, in task order; (ii) a task whose build raises is converted at that task's
boundary into a result carrying the error message with `None` array and
metadata (the pipeline itself is a total function, so nothing propagates);
and (iii) changing what one task `t0` does (e.g. making it fail) leaves every
sibling task's result unchanged. -/
theorem run_arm_jobs_error_containment {α β : Type}
    (outcomes outcomes2 : BuildTask → Except String (α × β))
    (tasks : List BuildTask) (t0 : BuildTask)
    (hagree : ∀ t, t ≠ t0 → outcomes2 t = outcomes t) :
    (∀ s, run_arm_jobs outcomes tasks s =
        (tasks.filter fun t => decide (t.1 = s)).map
          (fun t => build_single_2d_array (outcomes t) t.2))
    ∧ (∀ t : BuildTask, ∀ e, outcomes t = .error e →
        build_single_2d_array (outcomes t) t.2 =
          ⟨t.2, none, none, some e⟩)
    ∧ (∀ (s : Nat) (i : Nat), (tasks.filter fun t => decide (t.1 = s))[i]? ≠ some t0 →
        (run_arm_jobs outcomes2 tasks s)[i]? = (run_arm_jobs outcomes tasks s)[i]?) := by
  refine ⟨run_arm_jobs_eq outcomes tasks, ?_, ?_⟩
  · intro t e he
    rw [he]
    rfl
  · intro s i hne
    rw [run_arm_jobs_eq, run_arm_jobs_eq, List.getElem?_map, List.getElem?_map]
    cases hti : (tasks.filter fun t => decide (t.1 = s))[i]? with
    | none => rfl
    | some t =>
      rw [hti] at hne
      have ht0 : t ≠ t0 := fun h => hne (by rw [h])
      simp [hagree t ht0]

/-- Witness for C2: spectrograph 2's arm-b task fails while the sibling tasks
of spectrograph 1 are untouched. -/
theorem run_arm_jobs_error_containment_witness :
    (∀ s, run_arm_jobs sampleOutcomes sampleTasks s =
        (sampleTasks.filter fun t => decide (t.1 = s)).map
          (fun t => build_single_2d_array (sampleOutcomes t) t.2))
    ∧ (∀ t : BuildTask, ∀ e, sampleOutcomes t = .error e →
        build_single_2d_array (sampleOutcomes t) t.2 =
          ⟨t.2, none, none, some e⟩)
    ∧ (∀ (s : Nat) (i : Nat), (sampleTasks.filter fun t => decide (t.1 = s))[i]? ≠ some ((2, "b") : BuildTask) →
        (run_arm_jobs sampleOutcomes2 sampleTasks s)[i]? =
          (run_arm_jobs sampleOutcomes sampleTasks s)[i]?) :=
  run_arm_jobs_error_containment sampleOutcomes sampleOutcomes2 sampleTasks (2, "b")
    (fun t ht => by simp [sampleOutcomes2, sampleOutcomes, ht])

/-- Helper: the arm-order fold leaves keys it never sees untouched. -/
theorem armOrder_foldl_not_mem (l : List (Nat × String)) (m : String → Option Nat)
    (a : String) (h : ∀ p ∈ l, p.2 ≠ a) :
    (l.foldl (fun m p x => if x = p.2 then some p.1 else m x) m) a = m a := by
  induction l generalizing m with
  | nil => rfl
  | cons p ps ih =>
    rw [List.foldl_cons, ih _ (fun q hq => h q (List.mem_cons_of_mem _ hq))]
    simp [Ne.symm (h p (List.mem_cons_self _ _))]

/-- Helper: on a duplicate-free arm list, the enumerate fold sends the i-th
arm to index k + i. -/
theorem armOrder_foldl_get (l : List String) (k : Nat) (m : String → Option Nat)
    (hnd : l.Nodup) (i : Nat) (h : i < l.length) :
    ((List.enumFrom k l).foldl (fun m p x => if x = p.2 then some p.1 else m x) m)
        l[i] = some (k + i) := by
  induction l generalizing k m i with
  | nil => exact absurd h (by simp)
  | cons b t ih =>
    cases i with
    | zero =>
      simp only [List.getElem_cons_zero, List.enumFrom_cons, List.foldl_cons]
      have hfresh : ∀ p ∈ List.enumFrom (k + 1) t, p.2 ≠ b := by
        intro p hp hpb
        have h22 := (List.mem_enumFrom hp).2.2
        have hmem : p.2 ∈ t := by rw [h22]; exact List.getElem_mem _
        exact (List.nodup_cons.1 hnd).1 (hpb ▸ hmem)
      rw [armOrder_foldl_not_mem _ _ _ hfresh]
      simp
    | succ j =>
      have hj : j < t.length := by simpa using h
      simp only [List.getElem_cons_succ, List.enumFrom_cons, List.foldl_cons]
      rw [ih (k + 1) _ (List.nodup_cons.1 hnd).2 j hj]
      congr 1
      omega

/-- Helper: on a duplicate-free arm list, the order dict maps the i-th arm
to i. -/
theorem armOrderMap_get (arms : List String) (hnd : arms.Nodup) (i : Nat)
    (h : i < arms.length) : armOrderMap arms arms[i] = some i := by
  unfold armOrderMap
  have h0 := armOrder_foldl_get arms 0 (fun _ => none) hnd i h
  rw [Nat.zero_add] at h0
  exact h0

/-- Helper: on a duplicate-free arm list, the sort key of the i-th arm is i. -/
theorem armSortKey_get (arms : List String) (hnd : arms.Nodup) (i : Nat)
    (h : i < arms.length) : armSortKey arms arms[i] = i := by
  unfold armSortKey
  rw [armOrderMap_get arms hnd i h]
  rfl

/-- Helper: spectrographs outside the request filter to nothing in the task
product. -/
theorem buildTasks_filter_not_mem (xs : List Nat) (arms : List String) (s : Nat)
    (hs : s ∉ xs) :
    ((xs.flatMap fun x => arms.map fun a => ((x, a) : BuildTask)).filter
      fun t => decide (t.1 = s)) = [] := by
  apply List.filter_eq_nil_iff.2
  intro t ht
  obtain ⟨x, hx, ht2⟩ := List.mem_flatMap.1 ht
  obtain ⟨a, _, rfl⟩ := List.mem_map.1 ht2
  simp only [decide_eq_true_eq]
  exact fun h => hs (h ▸ hx)

/-- Helper: filtering one spectrograph's arm block. -/
theorem buildTasks_filter_block (x s : Nat) (arms : List String) :
    ((arms.map fun a => ((x, a) : BuildTask)).filter fun t => decide (t.1 = s)) =
      if x = s then arms.map (fun a => ((s, a) : BuildTask)) else [] := by
  by_cases hxs : x = s
  · subst hxs
    rw [if_pos rfl]
    apply List.filter_eq_self.2
    intro t ht
    obtain ⟨a, _, rfl⟩ := List.mem_map.1 ht
    simp
  · rw [if_neg hxs]
    apply List.filter_eq_nil_iff.2
    intro t ht
    obtain ⟨a, _, rfl⟩ := List.mem_map.1 ht
    simp [hxs]

/-- Helper: the product's tasks naming a requested spectrograph are exactly
its arm block, in caller arm order. -/
theorem buildTasks_filter (spectros : List Nat) (arms : List String) (s : Nat)
    (hnd : spectros.Nodup) (hs : s ∈ spectros) :
    ((buildTasks spectros arms).filter fun t => decide (t.1 = s)) =
      arms.map fun a => ((s, a) : BuildTask) := by
  show ((spectros.flatMap fun x => arms.map fun a => ((x, a) : BuildTask)).filter
    fun t => decide (t.1 = s)) = _
  induction spectros with
  | nil => cases hs
  | cons x xs ih =>
    rw [List.flatMap_cons, List.filter_append]
    rcases List.mem_cons.1 hs with rfl | hxs
    · rw [buildTasks_filter_block, if_pos rfl,
        buildTasks_filter_not_mem xs arms _ (List.nodup_cons.1 hnd).1, List.append_nil]
    · have hxns : x ≠ s := fun h => (List.nodup_cons.1 hnd).1 (h ▸ hxs)
      rw [buildTasks_filter_block, if_neg hxns, List.nil_append]
      exact ih (List.nodup_cons.1 hnd).2 hxs

/-- Helper: a canonical per-arm entry list is already sorted by arm key, so
the sort leaves it unchanged. -/
theorem sortEntriesByArm_map {α β : Type} (arms : List String) (hnd : arms.Nodup)
    (f : String → BuildResult α β) (harm : ∀ a, (f a).arm = a) :
    sortEntriesByArm arms (arms.map f) = arms.map f := by
  apply List.Sorted.insertionSort_eq
  refine List.pairwise_map.2 (List.pairwise_iff_getElem.2 fun i j hi hj hij => ?_)
  simp only [harm]
  rw [armSortKey_get arms hnd i hi, armSortKey_get arms hnd j hj]
  exact Nat.le_of_lt hij

/-- Helper: two lists sorted by a key that is duplicate-free on the second,
and permutations of each other, are equal. -/
theorem eq_of_perm_of_sorted_keys {γ : Type} (key : γ → Nat) (l₁ l₂ : List γ)
    (hp : l₁.Perm l₂)
    (h₁ : l₁.Pairwise fun e1 e2 => key e1 ≤ key e2)
    (h₂ : l₂.Pairwise fun e1 e2 => key e1 ≤ key e2)
    (hnd : (l₂.map key).Nodup) : l₁ = l₂ := by
  induction l₂ generalizing l₁ with
  | nil => exact hp.eq_nil
  | cons b t ih =>
    cases l₁ with
    | nil => exact absurd hp.symm.eq_nil (by simp)
    | cons a s =>
      have hndc : key b ∉ t.map key ∧ (t.map key).Nodup := by
        rw [List.map_cons] at hnd
        exact List.nodup_cons.1 hnd
      have hab : a = b := by
        have ha : a ∈ b :: t := hp.subset (List.mem_cons_self _ _)
        rcases List.mem_cons.1 ha with h | hat
        · exact h
        · have hb : b ∈ a :: s := hp.symm.subset (List.mem_cons_self _ _)
          rcases List.mem_cons.1 hb with h | hbs
          · exact h.symm
          · have h1 : key a ≤ key b := (List.pairwise_cons.1 h₁).1 b hbs
            have h2 : key b ≤ key a := (List.pairwise_cons.1 h₂).1 a hat
            have hmem : key a ∈ t.map key := List.mem_map_of_mem key hat
            rw [Nat.le_antisymm h1 h2] at hmem
            exact absurd hmem hndc.1
      subst hab
      rw [ih s hp.cons_inv (List.pairwise_cons.1 h₁).2 (List.pairwise_cons.1 h₂).2
        hndc.2]

/-- Helper: the sort keys of a duplicate-free arm list enumerate
`0, ..., n-1`. -/
theorem armSortKey_map_range (arms : List String) (hnd : arms.Nodup) :
    (arms.map fun a => armSortKey arms a) = List.range arms.length := by
  apply List.ext_getElem
  · simp
  · intro i h1 h2
    simp only [List.getElem_map, List.getElem_range]
    exact armSortKey_get arms hnd i (by simpa using h1)

/-- C4: for every valid build request with duplicate-free spectrograph and arm
lists, the returned map groups results by spectrograph: each requested
spectrograph's list holds exactly one result per requested arm, in the
caller's arm order; moreover the grouping-and-sorting tail of the pipeline
reproduces that same list from the raw per-task results taken in any
completion order. -/
theorem build_2d_arrays_multi_spectrograph_ordering {α β : Type}
    (outcomes : BuildTask → Except String (α × β))
    (spectros : List Nat) (arms : List String)
    (hs : spectros ≠ []) (ha : arms ≠ [])
    (hnds : spectros.Nodup) (hnda : arms.Nodup) :
    ∃ g, build_2d_arrays_multi_spectrograph outcomes spectros arms = .ok g
      ∧ ∀ s ∈ spectros,
          g s = arms.map (fun a => build_single_2d_array (outcomes (s, a)) a)
          ∧ ∀ raw : List (Nat × BuildResult α β),
              raw.Perm ((buildTasks spectros arms).map (execute_task outcomes)) →
              sortEntriesByArm arms (groupBySpectrograph raw s) = g s := by
  refine ⟨fun s =>
    if s ∈ spectros then
      sortEntriesByArm arms (run_arm_jobs outcomes (buildTasks spectros arms) s)
    else run_arm_jobs outcomes (buildTasks spectros arms) s, ?_, ?_⟩
  · unfold build_2d_arrays_multi_spectrograph
    rw [if_neg hs, if_neg ha]
  · intro s hsmem
    have hcanon : run_arm_jobs outcomes (buildTasks spectros arms) s =
        arms.map fun a => build_single_2d_array (outcomes (s, a)) a := by
      rw [run_arm_jobs_eq, buildTasks_filter spectros arms s hnds hsmem,
        List.map_map]
      rfl
    have hsorted : sortEntriesByArm arms
        (arms.map fun a => build_single_2d_array (outcomes (s, a)) a) =
        arms.map fun a => build_single_2d_array (outcomes (s, a)) a :=
      sortEntriesByArm_map arms hnda _ fun a => build_single_2d_array_arm _ _
    constructor
    · show (if s ∈ spectros then
          sortEntriesByArm arms (run_arm_jobs outcomes (buildTasks spectros arms) s)
        else run_arm_jobs outcomes (buildTasks spectros arms) s) = _
      rw [if_pos hsmem, hcanon, hsorted]
    · intro raw hraw
      show _ = (if s ∈ spectros then
          sortEntriesByArm arms (run_arm_jobs outcomes (buildTasks spectros arms) s)
        else run_arm_jobs outcomes (buildTasks spectros arms) s)
      rw [if_pos hsmem, hcanon, hsorted]
      have hgroup : groupBySpectrograph raw s =
          (raw.filter fun r => decide (r.1 = s)).map fun r => r.2 := by
        have h := groupBySpectrograph_foldl raw
          (fun _ => ([] : List (BuildResult α β))) s
        rw [List.nil_append] at h
        exact h
      have hcanon2 : (((buildTasks spectros arms).map
            (execute_task outcomes)).filter fun r => decide (r.1 = s)).map
            (fun r => r.2) =
          arms.map fun a => build_single_2d_array (outcomes (s, a)) a := by
        have h := groupBySpectrograph_foldl
          ((buildTasks spectros arms).map (execute_task outcomes))
          (fun _ => ([] : List (BuildResult α β))) s
        rw [List.nil_append] at h
        rw [← h]
        exact hcanon
      have hg : (groupBySpectrograph raw s).Perm
          (arms.map fun a => build_single_2d_array (outcomes (s, a)) a) := by
        rw [hgroup, ← hcanon2]
        exact (hraw.filter _).map _
      apply eq_of_perm_of_sorted_keys (fun e => armSortKey arms e.arm)
      · exact (List.perm_insertionSort _ _).trans hg
      · haveI : IsTrans (BuildResult α β)
            (fun e1 e2 => armSortKey arms e1.arm ≤ armSortKey arms e2.arm) :=
          ⟨fun _ _ _ => Nat.le_trans⟩
        haveI : IsTotal (BuildResult α β)
            (fun e1 e2 => armSortKey arms e1.arm ≤ armSortKey arms e2.arm) :=
          ⟨fun _ _ => Nat.le_total _ _⟩
        exact List.sorted_insertionSort _ _
      · refine List.pairwise_map.2
          (List.pairwise_iff_getElem.2 fun i j hi hj hij => ?_)
        simp only [build_single_2d_array_arm]
        rw [armSortKey_get arms hnda i hi, armSortKey_get arms hnda j hj]
        exact Nat.le_of_lt hij
      · rw [List.map_map]
        have : ((fun e : BuildResult α β => armSortKey arms e.arm) ∘
            fun a => build_single_2d_array (outcomes (s, a)) a) =
            fun a => armSortKey arms a := by
          funext a
          simp [Function.comp, build_single_2d_array_arm]
        rw [this, armSortKey_map_range arms hnda]
        exact List.nodup_range _

/-- Witness for C4 on the standard request: spectrographs 1-2, all four arms. -/
theorem build_2d_arrays_multi_spectrograph_ordering_witness :
    ∃ g, build_2d_arrays_multi_spectrograph sampleOutcomes [1, 2]
          ["b", "r", "n", "m"] = .ok g
      ∧ ∀ s ∈ [1, 2],
          g s = ["b", "r", "n", "m"].map
            (fun a => build_single_2d_array (sampleOutcomes (s, a)) a)
          ∧ ∀ raw : List (Nat × BuildResult Nat Nat),
              raw.Perm ((buildTasks [1, 2] ["b", "r", "n", "m"]).map
                (execute_task sampleOutcomes)) →
              sortEntriesByArm ["b", "r", "n", "m"]
                (groupBySpectrograph raw s) = g s :=
  build_2d_arrays_multi_spectrograph_ordering sampleOutcomes [1, 2]
    ["b", "r", "n", "m"] (by decide) (by decide) (by decide) (by decide)

/-- Helper: an hv result contributes no dict entry exactly when it is not
successful. -/
theorem mkSuccessEntry_none_iff {γ : Type} (r : String × Option γ × Option String) :
    mkSuccessEntry r = none ↔ hvSuccess r = false := by
  rcases r with ⟨a, img, err⟩
  cases img <;> cases err <;> simp [mkSuccessEntry, hvSuccess]

/-- Helper: the successful-arms dict accumulated by the classification loop. -/
theorem classify_foldl_successful {γ : Type}
    (rs : List (String × Option γ × Option String)) (acc : ArmClassification γ) :
    (rs.foldl classify_step acc).successful_arms =
      acc.successful_arms ++ rs.filterMap mkSuccessEntry := by
  induction rs generalizing acc with
  | nil => simp
  | cons r rs ih =>
    rw [List.foldl_cons, ih, List.filterMap_cons]
    rcases r with ⟨a, img, err⟩
    cases img with
    | some i =>
      cases err with
      | none => simp [classify_step, mkSuccessEntry, List.append_assoc]
      | some e =>
        simp only [classify_step, mkSuccessEntry]
        split <;> simp
    | none =>
      cases err with
      | none =>
        simp only [classify_step, mkSuccessEntry]
        split <;> simp
      | some e =>
        simp only [classify_step, mkSuccessEntry]
        split <;> simp

/-- Helper: the missing-arm notes accumulated by the classification loop. -/
theorem classify_foldl_missing {γ : Type}
    (rs : List (String × Option γ × Option String)) (acc : ArmClassification γ) :
    (rs.foldl classify_step acc).missing_arms =
      acc.missing_arms ++ (rs.filter fun r => !hvSuccess r && hvNotFound r).map
        (fun r => armDisplayName r.1) := by
  induction rs generalizing acc with
  | nil => simp
  | cons r rs ih =>
    rw [List.foldl_cons, ih, List.filter_cons]
    rcases r with ⟨a, img, err⟩
    cases img with
    | some i =>
      cases err with
      | none => simp [classify_step, hvSuccess, hvNotFound]
      | some e =>
        cases hc : str_contains e "could not be found" <;>
          simp [classify_step, hvSuccess, hvNotFound, hc, List.append_assoc]
    | none =>
      cases err with
      | none => simp [classify_step, hvSuccess, hvNotFound]
      | some e =>
        cases hc : str_contains e "could not be found" <;>
          simp [classify_step, hvSuccess, hvNotFound, hc, List.append_assoc]

/-- Helper: the error-arm notes accumulated by the classification loop. -/
theorem classify_foldl_errors {γ : Type}
    (rs : List (String × Option γ × Option String)) (acc : ArmClassification γ) :
    (rs.foldl classify_step acc).error_arms =
      acc.error_arms ++ (rs.filter fun r => !hvSuccess r && !hvNotFound r).map
        (fun r => (armDisplayName r.1, r.2.2)) := by
  induction rs generalizing acc with
  | nil => simp
  | cons r rs ih =>
    rw [List.foldl_cons, ih, List.filter_cons]
    rcases r with ⟨a, img, err⟩
    cases img with
    | some i =>
      cases err with
      | none => simp [classify_step, hvSuccess, hvNotFound]
      | some e =>
        cases hc : str_contains e "could not be found" <;>
          simp [classify_step, hvSuccess, hvNotFound, hc, List.append_assoc]
    | none =>
      cases err with
      | none => simp [classify_step, hvSuccess, hvNotFound, List.append_assoc]
      | some e =>
        cases hc : str_contains e "could not be found" <;>
          simp [classify_step, hvSuccess, hvNotFound, hc, List.append_assoc]

/-- Helper: a spectrograph produces no panel exactly when none of its arms
succeeded. -/
theorem reduce_spectro_none_iff {γ : Type}
    (hv : List (String × Option γ × Option String)) :
    reduce_spectro hv = none ↔ hv.any hvSuccess = false := by
  have hs : (classify_arm_results hv).successful_arms = hv.filterMap mkSuccessEntry := by
    have := classify_foldl_successful hv ⟨[], [], []⟩
    simpa [classify_arm_results] using this
  simp only [reduce_spectro, hs]
  by_cases hE : (hv.filterMap mkSuccessEntry).isEmpty
  · rw [if_pos hE]
    simp only [true_iff]
    rw [List.isEmpty_iff, List.filterMap_eq_nil_iff] at hE
    rw [List.any_eq_false]
    intro r hr
    rw [Bool.not_eq_true]
    exact (mkSuccessEntry_none_iff r).1 (hE r hr)
  · rw [if_neg hE]
    simp only [reduceCtorEq, false_iff]
    intro hall
    apply hE
    rw [List.isEmpty_iff, List.filterMap_eq_nil_iff]
    rw [List.any_eq_false] at hall
    intro r hr
    exact (mkSuccessEntry_none_iff r).2 (by simpa using hall r hr)

/-- Helper: the panel list is empty exactly when every requested spectrograph
had zero successful arms. -/
theorem plot_2d_panels_eq_nil_iff {α β γ : Type}
    (render : BuildResult α β → Except String γ) (spectros : List Nat)
    (grouped : Nat → List (BuildResult α β)) :
    plot_2d_panels render spectros grouped = [] ↔
      ∀ s ∈ spectros, spectroHasSuccess render grouped s = false := by
  unfold plot_2d_panels
  rw [List.filterMap_eq_nil_iff]
  constructor
  · intro h s hs
    have := h s hs
    rw [Option.map_eq_none'] at this
    exact (reduce_spectro_none_iff _).1 this
  · intro h s hs
    rw [Option.map_eq_none']
    exact (reduce_spectro_none_iff _).2 (h s hs)

/-- Helper: membership in the panel list pins down the spectrograph's reduced
panel. -/
theorem mem_plot_2d_panels {α β γ : Type}
    (render : BuildResult α β → Except String γ) (spectros : List Nat)
    (grouped : Nat → List (BuildResult α β)) (s : Nat) (p : ReducedPanel γ)
    (h : (s, p) ∈ plot_2d_panels render spectros grouped) :
    s ∈ spectros ∧
      reduce_spectro (create_holoviews_from_arrays render (grouped s)) = some p := by
  unfold plot_2d_panels at h
  obtain ⟨s', hs', hmap⟩ := List.mem_filterMap.1 h
  cases hred : reduce_spectro (create_holoviews_from_arrays render (grouped s')) with
  | none => rw [hred] at hmap; simp at hmap
  | some q =>
    rw [hred] at hmap
    simp only [Option.map_some', Option.some.injEq, Prod.mk.injEq] at hmap
    obtain ⟨h1, h2⟩ := hmap
    subst h1
    subst h2
    exact ⟨hs', hred⟩

/-- Helper: a produced panel carries exactly the classification's notes. -/
theorem reduce_spectro_some_notes {γ : Type}
    (hv : List (String × Option γ × Option String)) (p : ReducedPanel γ)
    (h : reduce_spectro hv = some p) :
    p.missing_notes = (classify_arm_results hv).missing_arms
    ∧ p.error_notes = (classify_arm_results hv).error_arms := by
  simp only [reduce_spectro] at h
  by_cases hE : (classify_arm_results hv).successful_arms.isEmpty
  · rw [if_pos hE] at h
    exact absurd h (by simp)
  · rw [if_neg hE] at h
    injection h with h'
    rw [← h']
    exact ⟨rfl, rfl⟩

/-- C3: with at least one spectrograph requested, `plot_2d_callback` signals
the no-results hard error exactly when every requested spectrograph produced
zero successful arms; when at least one spectrograph has a successful arm the
request completes with assembled panels (no hard error); a spectrograph with
zero successes contributes no panel; and every produced panel reports each
per-arm failure as a note — not-found arms in the missing notes, real
failures with their message in the error notes. -/
theorem plot_2d_no_results_policy {α β γ : Type}
    (render : BuildResult α β → Except String γ) (spectros : List Nat)
    (grouped : Nat → List (BuildResult α β)) (hsne : spectros ≠ []) :
    ((plot_2d_callback render spectros grouped = Plot2DOutcome.failure noResultsMsg) ↔
      ∀ s ∈ spectros, spectroHasSuccess render grouped s = false)
    ∧ (∀ s ∈ spectros, spectroHasSuccess render grouped s = false →
        ∀ p, (s, p) ∉ plot_2d_panels render spectros grouped)
    ∧ ((∃ s ∈ spectros, spectroHasSuccess render grouped s = true) →
        ∃ panels, plot_2d_callback render spectros grouped =
          Plot2DOutcome.success panels ∧ panels ≠ [])
    ∧ (∀ s p, (s, p) ∈ plot_2d_panels render spectros grouped →
        p.missing_notes = ((create_holoviews_from_arrays render (grouped s)).filter
            fun r => !hvSuccess r && hvNotFound r).map (fun r => armDisplayName r.1)
        ∧ p.error_notes = ((create_holoviews_from_arrays render (grouped s)).filter
            fun r => !hvSuccess r && !hvNotFound r).map
              (fun r => (armDisplayName r.1, r.2.2))) := by
  refine ⟨?_, ?_, ?_, ?_⟩
  · simp only [plot_2d_callback, if_neg hsne]
    by_cases hP : (plot_2d_panels render spectros grouped).isEmpty = true
    · rw [if_pos hP]
      exact iff_of_true rfl
        ((plot_2d_panels_eq_nil_iff render spectros grouped).1 (List.isEmpty_iff.1 hP))
    · rw [if_neg hP]
      exact iff_of_false (fun h => Plot2DOutcome.noConfusion h)
        (fun h => hP (List.isEmpty_iff.2
          ((plot_2d_panels_eq_nil_iff render spectros grouped).2 h)))
  · intro s _ hfail p hp
    obtain ⟨_, hred⟩ := mem_plot_2d_panels render spectros grouped s p hp
    have hnone : reduce_spectro
        (create_holoviews_from_arrays render (grouped s)) = none :=
      (reduce_spectro_none_iff _).2 hfail
    exact Option.noConfusion (hnone.symm.trans hred)
  · rintro ⟨s, hs, hsucc⟩
    simp only [plot_2d_callback, if_neg hsne]
    have hPne : plot_2d_panels render spectros grouped ≠ [] := by
      intro h
      have hall := (plot_2d_panels_eq_nil_iff render spectros grouped).1 h s hs
      rw [hsucc] at hall
      exact Bool.noConfusion hall
    have hP : ¬ ((plot_2d_panels render spectros grouped).isEmpty = true) :=
      fun h => hPne (List.isEmpty_iff.1 h)
    rw [if_neg hP]
    exact ⟨_, rfl, hPne⟩
  · intro s p hp
    obtain ⟨_, hred⟩ := mem_plot_2d_panels render spectros grouped s p hp
    obtain ⟨hm, he⟩ := reduce_spectro_some_notes _ p hred
    constructor
    · rw [hm]
      have hmiss := classify_foldl_missing
        (create_holoviews_from_arrays render (grouped s)) ⟨[], [], []⟩
      simpa [classify_arm_results] using hmiss
    · rw [he]
      have herr := classify_foldl_errors
        (create_holoviews_from_arrays render (grouped s)) ⟨[], [], []⟩
      simpa [classify_arm_results] using herr

/-- Witness for C3: spectrograph 1 succeeds on the blue arm with the red arm
missing, spectrograph 2 fails outright. -/
theorem plot_2d_no_results_policy_witness :
    ((plot_2d_callback sampleRender [1, 2] sampleGrouped =
        Plot2DOutcome.failure noResultsMsg) ↔
      ∀ s ∈ [1, 2], spectroHasSuccess sampleRender sampleGrouped s = false)
    ∧ (∀ s ∈ [1, 2], spectroHasSuccess sampleRender sampleGrouped s = false →
        ∀ p, (s, p) ∉ plot_2d_panels sampleRender [1, 2] sampleGrouped)
    ∧ ((∃ s ∈ [1, 2], spectroHasSuccess sampleRender sampleGrouped s = true) →
        ∃ panels, plot_2d_callback sampleRender [1, 2] sampleGrouped =
          Plot2DOutcome.success panels ∧ panels ≠ [])
    ∧ (∀ s p, (s, p) ∈ plot_2d_panels sampleRender [1, 2] sampleGrouped →
        p.missing_notes =
          ((create_holoviews_from_arrays sampleRender (sampleGrouped s)).filter
            fun r => !hvSuccess r && hvNotFound r).map (fun r => armDisplayName r.1)
        ∧ p.error_notes =
          ((create_holoviews_from_arrays sampleRender (sampleGrouped s)).filter
            fun r => !hvSuccess r && !hvNotFound r).map
              (fun r => (armDisplayName r.1, r.2.2))) :=
  plot_2d_no_results_policy sampleRender [1, 2] sampleGrouped (by decide)

/-- C9: a Butler handle is never reconstructed while present in its owning
cache: with a cache whose key is present, `get_butler_cached` returns the
exact cached handle, constructs nothing (the counter is unchanged) and leaves
the cache as is; with the key absent it constructs exactly one handle, and
the cache afterwards maps the key to the returned handle; feeding that cache
into a second call for the same key returns the same handle with no further
construction, so repeated calls construct at most one handle in total. -/
theorem get_butler_cached_at_most_once (cache : ButlerKey → Option Nat)
    (key : ButlerKey) (counter : Nat) :
    (∀ b, cache key = some b →
      get_butler_cached key (some cache) counter = (b, some cache, counter))
    ∧ (cache key = none →
        (get_butler_cached key (some cache) counter).1 = counter
        ∧ (get_butler_cached key (some cache) counter).2.2 = counter + 1
        ∧ ∃ cache2, (get_butler_cached key (some cache) counter).2.1 = some cache2
            ∧ cache2 key = some (get_butler_cached key (some cache) counter).1)
    ∧ (cache key = none →
        ∀ cache2, (get_butler_cached key (some cache) counter).2.1 = some cache2 →
          get_butler_cached key (some cache2)
              ((get_butler_cached key (some cache) counter).2.2) =
            ((get_butler_cached key (some cache) counter).1, some cache2,
              counter + 1)) := by
  refine ⟨?_, ?_, ?_⟩
  · intro b hb
    simp [get_butler_cached, hb]
  · intro hb
    have hval : get_butler_cached key (some cache) counter =
        (counter, some (fun k => if k = key then some counter else cache k),
          counter + 1) := by
      simp [get_butler_cached, get_butler, hb]
    rw [hval]
    exact ⟨rfl, rfl, ⟨_, rfl, by simp⟩⟩
  · intro hb cache2 h2
    have hval : get_butler_cached key (some cache) counter =
        (counter, some (fun k => if k = key then some counter else cache k),
          counter + 1) := by
      simp [get_butler_cached, get_butler, hb]
    rw [hval] at h2 ⊢
    injection h2 with h2'
    subst h2'
    simp [get_butler_cached]

/-- Witness for C9 starting from an empty Butler cache. -/
theorem get_butler_cached_at_most_once_witness :
    (∀ b, (fun _ : ButlerKey => (none : Option Nat)) ("/work/datastore",
        "u/obsproc/s25a/20250520b", 123456) = some b →
      get_butler_cached ("/work/datastore", "u/obsproc/s25a/20250520b", 123456)
          (some fun _ => none) 0 = (b, some fun _ => none, 0))
    ∧ ((fun _ : ButlerKey => (none : Option Nat)) ("/work/datastore",
        "u/obsproc/s25a/20250520b", 123456) = none →
        (get_butler_cached ("/work/datastore", "u/obsproc/s25a/20250520b", 123456)
            (some fun _ => none) 0).1 = 0
        ∧ (get_butler_cached ("/work/datastore", "u/obsproc/s25a/20250520b", 123456)
            (some fun _ => none) 0).2.2 = 0 + 1
        ∧ ∃ cache2, (get_butler_cached ("/work/datastore",
              "u/obsproc/s25a/20250520b", 123456) (some fun _ => none) 0).2.1 =
              some cache2
            ∧ cache2 ("/work/datastore", "u/obsproc/s25a/20250520b", 123456) =
              some (get_butler_cached ("/work/datastore",
                "u/obsproc/s25a/20250520b", 123456) (some fun _ => none) 0).1)
    ∧ ((fun _ : ButlerKey => (none : Option Nat)) ("/work/datastore",
        "u/obsproc/s25a/20250520b", 123456) = none →
        ∀ cache2, (get_butler_cached ("/work/datastore",
            "u/obsproc/s25a/20250520b", 123456) (some fun _ => none) 0).2.1 =
            some cache2 →
          get_butler_cached ("/work/datastore", "u/obsproc/s25a/20250520b", 123456)
              (some cache2)
              ((get_butler_cached ("/work/datastore",
                "u/obsproc/s25a/20250520b", 123456) (some fun _ => none) 0).2.2) =
            ((get_butler_cached ("/work/datastore",
                "u/obsproc/s25a/20250520b", 123456) (some fun _ => none) 0).1,
              some cache2, 0 + 1)) :=
  get_butler_cached_at_most_once (fun _ => none)
    ("/work/datastore", "u/obsproc/s25a/20250520b", 123456) 0

/-- Helper: invariant of the `load_visit_data` mapping loop — the two dicts
stay mutual inverses, and every recorded fiber id was already processed. -/
theorem load_visit_data_foldl_inv (pairs : List (Int × String))
    (o2f : String → Option (List Int)) (f2o : Int → Option String)
    (seen : List Int)
    (hiff : ∀ f c, f2o f = some c ↔ ∃ l, o2f c = some l ∧ f ∈ l)
    (hseen : ∀ c l, o2f c = some l → ∀ f ∈ l, f ∈ seen)
    (hfresh : ∀ p ∈ pairs, p.1 ∉ seen)
    (hnd : (pairs.map fun p => p.1).Nodup) :
    (∀ f c, (pairs.foldl obcodeFiberStep (o2f, f2o)).2 f = some c ↔
        ∃ l, (pairs.foldl obcodeFiberStep (o2f, f2o)).1 c = some l ∧ f ∈ l)
    ∧ (∀ c l, (pairs.foldl obcodeFiberStep (o2f, f2o)).1 c = some l →
        ∀ f ∈ l, f ∈ seen ++ pairs.map fun p => p.1) := by
  induction pairs generalizing o2f f2o seen with
  | nil =>
    refine ⟨hiff, ?_⟩
    intro c l hl f hf
    rw [List.map_nil, List.append_nil]
    exact hseen c l hl f hf
  | cons p t ih =>
    rw [List.foldl_cons]
    have hpfresh : p.1 ∉ seen := hfresh p (List.mem_cons_self _ _)
    have hpnotint : p.1 ∉ t.map fun q => q.1 := by
      have h := hnd
      rw [List.map_cons] at h
      exact (List.nodup_cons.1 h).1
    have hiff' : ∀ f c, (obcodeFiberStep (o2f, f2o) p).2 f = some c ↔
        ∃ l, (obcodeFiberStep (o2f, f2o) p).1 c = some l ∧ f ∈ l := by
      intro f c
      simp only [obcodeFiberStep]
      by_cases hf : f = p.1
      · subst hf
        rw [if_pos rfl]
        constructor
        · intro hc
          injection hc with hc
          subst hc
          exact ⟨_, if_pos rfl, by simp⟩
        · rintro ⟨l, hl, hfl⟩
          by_cases hc : c = p.2
          · rw [hc]
          · rw [if_neg hc] at hl
            exact absurd (hseen c l hl _ hfl) hpfresh
      · rw [if_neg hf]
        constructor
        · intro hc
          obtain ⟨l, hl, hfl⟩ := (hiff f c).1 hc
          by_cases hc2 : c = p.2
          · subst hc2
            refine ⟨(o2f p.2).getD [] ++ [p.1], if_pos rfl, ?_⟩
            rw [hl]
            exact List.mem_append_left _ hfl
          · exact ⟨l, by rw [if_neg hc2]; exact hl, hfl⟩
        · rintro ⟨l, hl, hfl⟩
          by_cases hc2 : c = p.2
          · subst hc2
            rw [if_pos rfl] at hl
            injection hl with hl
            subst hl
            rcases List.mem_append.1 hfl with hmem | hmem
            · cases ho : o2f p.2 with
              | none => rw [ho] at hmem; simp at hmem
              | some l0 =>
                rw [ho] at hmem
                simp only [Option.getD_some] at hmem
                exact (hiff f p.2).2 ⟨l0, ho, hmem⟩
            · simp only [List.mem_singleton] at hmem
              exact absurd hmem hf
          · rw [if_neg hc2] at hl
            exact (hiff f c).2 ⟨l, hl, hfl⟩
    have hseen' : ∀ c l, (obcodeFiberStep (o2f, f2o) p).1 c = some l →
        ∀ f ∈ l, f ∈ seen ++ [p.1] := by
      intro c l hl f hfl
      simp only [obcodeFiberStep] at hl
      by_cases hc : c = p.2
      · rw [if_pos hc] at hl
        injection hl with hl
        subst hl
        rcases List.mem_append.1 hfl with hmem | hmem
        · cases ho : o2f p.2 with
          | none => rw [ho] at hmem; simp at hmem
          | some l0 =>
            rw [ho] at hmem
            simp only [Option.getD_some] at hmem
            exact List.mem_append_left _ (hseen _ l0 ho f hmem)
        · simp only [List.mem_singleton] at hmem
          subst hmem
          exact List.mem_append_right _ (by simp)
      · rw [if_neg hc] at hl
        exact List.mem_append_left _ (hseen c l hl f hfl)
    have hfresh' : ∀ q ∈ t, q.1 ∉ seen ++ [p.1] := by
      intro q hq hmem
      rcases List.mem_append.1 hmem with hmem | hmem
      · exact hfresh q (List.mem_cons_of_mem _ hq) hmem
      · simp only [List.mem_singleton] at hmem
        exact hpnotint (hmem ▸ List.mem_map_of_mem (fun r => r.1) hq)
    have hndt : (t.map fun q => q.1).Nodup := by
      have h := hnd
      rw [List.map_cons] at h
      exact (List.nodup_cons.1 h).2
    obtain ⟨r1, r2⟩ := ih (obcodeFiberStep (o2f, f2o) p).1
      (obcodeFiberStep (o2f, f2o) p).2 (seen ++ [p.1]) hiff' hseen' hfresh' hndt
    refine ⟨r1, ?_⟩
    intro c l hl f hf
    have hmem := r2 c l hl f hf
    rw [List.map_cons]
    rwa [List.append_assoc, List.singleton_append] at hmem

/-- C8: for a pfsConfig with pairwise-distinct fiber ids, the two lookup
tables returned by `load_visit_data` are mutual inverses — `fiber_to_obcode`
maps fiber `f` to code `c` exactly when `f` is a member of
`obcode_to_fibers[c]` — every fiber id appearing in any per-code list has an
entry in `fiber_to_obcode`, and each per-code fiber list is sorted. -/
theorem load_visit_data_lookup_inverse (pairs : List (Int × String))
    (hnd : (pairs.map fun p => p.1).Nodup) :
    (∀ f c, (load_visit_data pairs).2 f = some c ↔
        ∃ l, (load_visit_data pairs).1 c = some l ∧ f ∈ l)
    ∧ (∀ c l f, (load_visit_data pairs).1 c = some l → f ∈ l →
        ((load_visit_data pairs).2 f).isSome)
    ∧ (∀ c l, (load_visit_data pairs).1 c = some l →
        l.Sorted (fun a b => a ≤ b)) := by
  obtain ⟨hiff, _⟩ := load_visit_data_foldl_inv pairs (fun _ => none) (fun _ => none)
    [] (fun f c => by simp) (fun c l h => Option.noConfusion h)
    (fun p _ => List.not_mem_nil p.1) hnd
  have h1 : ∀ c, (load_visit_data pairs).1 c =
      ((pairs.foldl obcodeFiberStep ((fun _ => none), (fun _ => none))).1 c).map
        (fun l => l.insertionSort (fun a b => a ≤ b)) := fun c => rfl
  have h2 : (load_visit_data pairs).2 =
      (pairs.foldl obcodeFiberStep ((fun _ => none), (fun _ => none))).2 := rfl
  refine ⟨?_, ?_, ?_⟩
  · intro f c
    rw [h2, hiff f c]
    constructor
    · rintro ⟨l, hl, hfl⟩
      refine ⟨l.insertionSort (fun a b => a ≤ b), ?_, ?_⟩
      · rw [h1, hl]
        rfl
      · exact ((List.perm_insertionSort _ l).mem_iff).2 hfl
    · rintro ⟨l', hl', hfl'⟩
      rw [h1] at hl'
      cases ho : (pairs.foldl obcodeFiberStep ((fun _ => none), (fun _ => none))).1 c with
      | none => rw [ho] at hl'; simp at hl'
      | some l0 =>
        rw [ho] at hl'
        simp only [Option.map_some'] at hl'
        injection hl' with hl'
        subst hl'
        exact ⟨l0, rfl, ((List.perm_insertionSort _ l0).mem_iff).1 hfl'⟩
  · intro c l f hl hf
    rw [h2]
    rw [h1] at hl
    cases ho : (pairs.foldl obcodeFiberStep ((fun _ => none), (fun _ => none))).1 c with
    | none => rw [ho] at hl; simp at hl
    | some l0 =>
      rw [ho] at hl
      simp only [Option.map_some'] at hl
      injection hl with hl
      subst hl
      have hf0 : f ∈ l0 := ((List.perm_insertionSort _ l0).mem_iff).1 hf
      rw [(hiff f c).2 ⟨l0, ho, hf0⟩]
      rfl
  · intro c l hl
    rw [h1] at hl
    cases ho : (pairs.foldl obcodeFiberStep ((fun _ => none), (fun _ => none))).1 c with
    | none => rw [ho] at hl; simp at hl
    | some l0 =>
      rw [ho] at hl
      simp only [Option.map_some'] at hl
      injection hl with hl
      subst hl
      exact List.sorted_insertionSort _ l0

/-- Witness for C8 on a three-fiber config with two OB codes. -/
theorem load_visit_data_lookup_inverse_witness :
    (∀ f c, (load_visit_data [(3, "obj-A"), (1, "obj-B"), (2, "obj-A")]).2 f = some c ↔
        ∃ l, (load_visit_data [(3, "obj-A"), (1, "obj-B"), (2, "obj-A")]).1 c =
            some l ∧ f ∈ l)
    ∧ (∀ c l f, (load_visit_data [(3, "obj-A"), (1, "obj-B"), (2, "obj-A")]).1 c =
          some l → f ∈ l →
        ((load_visit_data [(3, "obj-A"), (1, "obj-B"), (2, "obj-A")]).2 f).isSome)
    ∧ (∀ c l, (load_visit_data [(3, "obj-A"), (1, "obj-B"), (2, "obj-A")]).1 c =
          some l → l.Sorted (fun a b => a ≤ b)) :=
  load_visit_data_lookup_inverse [(3, "obj-A"), (1, "obj-B"), (2, "obj-A")] (by decide)

/-- C5 counterexample: with data loaded, the guard clear and an OB code
selected, an exception raised during the tabulator update propagates out of
`on_obcode_change` with `programmatic_update` left `true` — the flag is not
reset on the exceptional exit path, contradicting the claim that every
guarded handler resets it on every exit path. -/
theorem guard_flag_exception_counterexample :
    (on_obcode_change true (fun _ => []) sampleSession).1 = true
    ∧ (on_obcode_change true (fun _ => []) sampleSession).2.programmatic_update =
        true := by
  exact ⟨rfl, rfl⟩

/-- C5 (amended): every selection handler checks the guard at entry and is a
no-op — returning the state unchanged — whenever `programmatic_update` is
true, so a programmatic set never re-triggers a logical update; on the normal
path a handler sets the flag true before its programmatic sets and false
afterwards, finishing with the flag clear; but when the guarded update raises
(e.g. in the tabulator step) the exception propagates with the flag left
true, because the reset is a plain assignment rather than a scoped/finally
release. -/
theorem guard_flag_behavior (tabFails : Bool) (tabIndices : List Int → List Nat)
    (s : SessionWidgets) :
    (s.programmatic_update = true →
      on_obcode_change tabFails tabIndices s = (false, s)
      ∧ on_fiber_change tabFails tabIndices s = (false, s))
    ∧ (s.programmatic_update = false → s.loaded = true → tabFails = false →
        (on_obcode_change tabFails tabIndices s).1 = false
        ∧ (on_obcode_change tabFails tabIndices s).2.programmatic_update = false
        ∧ (on_fiber_change tabFails tabIndices s).1 = false
        ∧ (on_fiber_change tabFails tabIndices s).2.programmatic_update = false)
    ∧ (s.programmatic_update = false → s.loaded = true → tabFails = true →
        (on_obcode_change tabFails tabIndices s).1 = true
        ∧ (on_obcode_change tabFails tabIndices s).2.programmatic_update = true
        ∧ (on_fiber_change tabFails tabIndices s).1 = true
        ∧ (on_fiber_change tabFails tabIndices s).2.programmatic_update = true) := by
  refine ⟨?_, ?_, ?_⟩
  · intro hp
    have hskip : should_skip_update s = true := by
      simp [should_skip_update, hp]
    constructor <;> simp [on_obcode_change, on_fiber_change, hskip]
  · intro hp hl ht
    subst ht
    have hskip : should_skip_update s = false := by
      simp [should_skip_update, hp, hl]
    refine ⟨?_, ?_, ?_, ?_⟩ <;>
      simp [on_obcode_change, on_fiber_change, hskip]
  · intro hp hl ht
    subst ht
    have hskip : should_skip_update s = false := by
      simp [should_skip_update, hp, hl]
    refine ⟨?_, ?_, ?_, ?_⟩ <;>
      simp [on_obcode_change, on_fiber_change, hskip]

/-- Witness for the amended C5 on the concrete loaded session. -/
theorem guard_flag_behavior_witness :
    (sampleSession.programmatic_update = true →
      on_obcode_change false (fun _ => []) sampleSession = (false, sampleSession)
      ∧ on_fiber_change false (fun _ => []) sampleSession = (false, sampleSession))
    ∧ (sampleSession.programmatic_update = false → sampleSession.loaded = true →
        false = false →
        (on_obcode_change false (fun _ => []) sampleSession).1 = false
        ∧ (on_obcode_change false (fun _ => [])
            sampleSession).2.programmatic_update = false
        ∧ (on_fiber_change false (fun _ => []) sampleSession).1 = false
        ∧ (on_fiber_change false (fun _ => [])
            sampleSession).2.programmatic_update = false)
    ∧ (sampleSession.programmatic_update = false → sampleSession.loaded = true →
        false = true →
        (on_obcode_change false (fun _ => []) sampleSession).1 = true
        ∧ (on_obcode_change false (fun _ => [])
            sampleSession).2.programmatic_update = true
        ∧ (on_fiber_change false (fun _ => []) sampleSession).1 = true
        ∧ (on_fiber_change false (fun _ => [])
            sampleSession).2.programmatic_update = true) :=
  guard_flag_behavior false (fun _ => []) sampleSession
